import Mathlib

/-!
Verification development for the crawl-queue viewer component
(`src/frontend/src/features/archived-items/crawl-queue.ts`) of the
browsertrix-cloud frontend, together with the Queue Store contract it
assumes of the backend.

The component is a Lit reactive element that polls a paginated queue
endpoint.  We embed it shallowly:

* compiled `RegExp` values are represented by their `test` function
  (`String → Bool`); the host regex engine's notion of *which* pattern
  strings compile is abstracted as a parameter `compileOne : String →
  Option Rx` (JS regex syntax itself is external to this repository);
* the component's reactive/event-loop behaviour (property changes,
  promise resolution and rejection, timer firing) is embedded as an
  explicit step function on a state record, with the environment
  choosing the event order, exactly following the handlers in the
  source (`willUpdate`, `fetchOnUpdate`, `fetchQueue`, `getQueue`,
  `loadMore`, `updated`).
-/

namespace CrawlQueue

/-- `ResponseData` from the source: the shape of one queue query response. -/
structure ResponseData where
  total : Nat
  results : List String
  matched : List String
deriving DecidableEq

/-- `isExcluded` (source lines 226–234): iterate over the compiled
exclusion regexes and return `true` on the first whose `test` accepts
`url`; `false` if the loop falls through. -/
def isExcluded (exclusionsRx : List (String → Bool)) (url : String) : Bool :=
  match exclusionsRx with
  | [] => false
  | rx :: rest => if rx url then true else isExcluded rest url

/-- The per-entry display classification computed inside
`renderContent` (source lines 121–123):
`isMatch = this.queue!.matched.some((v) => v === url)` and
`isExcluded = !isMatch && this.isExcluded(url)`. -/
structure EntryClassification where
  isMatch : Bool
  isExcluded : Bool
deriving DecidableEq

/-- The classification of one rendered queue entry, from
`renderContent` (source lines 121–123). -/
def classifyEntry (matched : List String) (exclusionsRx : List (String → Bool))
    (url : String) : EntryClassification :=
  let isMatch := matched.any (fun v => v == url)
  { isMatch := isMatch, isExcluded := !isMatch && isExcluded exclusionsRx url }

/-- The CSS class chosen for the entry's link (source lines 130–134):
match style, else excluded style, else the default style. -/
def linkClass (c : EntryClassification) : String :=
  if c.isMatch then "text-red-500 hover:text-red-400"
  else if c.isExcluded then "text-gray-500 hover:text-gray-400 line-through"
  else "text-blue-500 hover:text-blue-400"

/-- `POLL_INTERVAL_SECONDS` (source line 17). -/
def POLL_INTERVAL_SECONDS : Nat := 5

/-- The watched reactive properties of the component that parameterise a
queue query: `orgId`, `crawlId`, `regex` and the `pageSize` state
(initially 50, source line 64). -/
structure QueueParams where
  orgId : String
  crawlId : String
  regex : String
  pageSize : Nat
deriving DecidableEq

/-- The request constructed by `getQueue` (source lines 236–247):
`offset = "0"`, `count = this.pageSize.toString()`, `regex = this.regex`,
against `/orgs/{orgId}/crawls/{crawlId}/queue`. -/
structure QueueRequest where
  orgId : String
  crawlId : String
  offset : Nat
  count : Nat
  regex : String
deriving DecidableEq

/-- `getQueue`'s request construction from the current reactive
properties (source lines 236–247). -/
def getQueueRequest (p : QueueParams) : QueueRequest :=
  { orgId := p.orgId, crawlId := p.crawlId, offset := 0,
    count := p.pageSize, regex := p.regex }

/-- One pending `getQueue` promise: its id, the request it was issued
with, and whether it was awaited from `fetchOnUpdate` (which resets
`isLoading` when it settles). -/
structure Fetch where
  id : Nat
  req : QueueRequest
  fromUpdate : Bool
deriving DecidableEq

/-- One armed `window.setTimeout` timer: its id and its delay in
milliseconds. -/
structure Timer where
  id : Nat
  delayMs : Nat
deriving DecidableEq

/-- The component state plus the browser bookkeeping it interacts with:
the reactive properties, the `queue` snapshot, `isLoading`, the last
stored `this.timerId`, the set of currently armed timers, the set of
in-flight `getQueue` promises, a fresh-id counter, and a count of
notifications surfaced via `this.notify`. -/
structure MState where
  params : QueueParams
  queue : Option ResponseData
  isLoading : Bool
  timerId : Option Nat
  armed : List Timer
  inflight : List Fetch
  nextId : Nat
  notifications : Nat
deriving DecidableEq

/-- Issue a `getQueue` call: a new promise enters `inflight`, built by
`getQueueRequest` from the current properties (source line 211 resp.
213, via lines 236–247). -/
def issueFetch (fromUpdate : Bool) (st : MState) : MState :=
  { st with
    inflight := st.inflight ++ [⟨st.nextId, getQueueRequest st.params, fromUpdate⟩],
    nextId := st.nextId + 1 }

/-- `window.clearInterval(this.timerId)` (source line 202): the timer
whose id is `this.timerId`, if armed, is disarmed; `this.timerId` itself
is not reset. -/
def clearTimer (st : MState) : MState :=
  { st with armed := st.armed.filter (fun t => some t.id != st.timerId) }

/-- `fetchOnUpdate` (source lines 201–207) up to its first suspension:
clear the stored timer, set `isLoading`, and start `fetchQueue`, which
immediately awaits `getQueue` (so a fetch is issued; the continuation
after the await runs when the promise settles). -/
def fetchOnUpdate (st : MState) : MState :=
  issueFetch true { clearTimer st with isLoading := true }

/-- `willUpdate` (source lines 81–91): when any watched property
actually changes, run `fetchOnUpdate`; Lit does not fire an update when
a property is set to an equal value. -/
def setParamsStep (p : QueueParams) (st : MState) : MState :=
  if p = st.params then st else fetchOnUpdate { st with params := p }

/-- `loadMore` (source lines 197–199): `this.pageSize = this.pageSize + 50`;
`pageSize` is watched by `willUpdate`, so the update triggers
`fetchOnUpdate`. -/
def loadMore (st : MState) : MState :=
  setParamsStep { st.params with pageSize := st.params.pageSize + 50 } st

/-- The continuation of `fetchQueue` after `await this.getQueue()`
resolves (source lines 211–214): store the response in `this.queue` and
arm the next poll with `window.setTimeout(..., POLL_INTERVAL_SECONDS * 1000)`,
overwriting `this.timerId` without clearing the previous timer; if the
fetch was awaited from `fetchOnUpdate`, its `isLoading = false` line
(source 206) then runs. -/
def resolveCont (f : Fetch) (data : ResponseData) (st : MState) : MState :=
  { st with
    queue := some data,
    armed := st.armed ++ [⟨st.nextId, POLL_INTERVAL_SECONDS * 1000⟩],
    timerId := some st.nextId,
    nextId := st.nextId + 1,
    isLoading := if f.fromUpdate then false else st.isLoading }

/-- The catch block of `fetchQueue` (source lines 215–223): if the
error message is not `"invalid_regex"`, surface a notification;
`this.queue` is not touched and no timer is armed; if the fetch was
awaited from `fetchOnUpdate`, its `isLoading = false` line then runs. -/
def rejectCont (f : Fetch) (msg : String) (st : MState) : MState :=
  { st with
    notifications :=
      if msg ≠ "invalid_regex" then st.notifications + 1 else st.notifications,
    isLoading := if f.fromUpdate then false else st.isLoading }

/-- Resolution of the in-flight promise with id `fid`: it leaves
`inflight` and its `fetchQueue` continuation runs. A resolution event
for an id that is not in flight is a no-op. -/
def resolveStep (fid : Nat) (data : ResponseData) (st : MState) : MState :=
  match st.inflight.find? (fun f => f.id == fid) with
  | none => st
  | some f =>
      resolveCont f data
        { st with inflight := st.inflight.filter (fun g => g.id != fid) }

/-- Rejection of the in-flight promise with id `fid`: it leaves
`inflight` and the catch block runs. -/
def rejectStep (fid : Nat) (msg : String) (st : MState) : MState :=
  match st.inflight.find? (fun f => f.id == fid) with
  | none => st
  | some f =>
      rejectCont f msg
        { st with inflight := st.inflight.filter (fun g => g.id != fid) }

/-- An armed timer fires: it is disarmed and its callback
`void this.fetchQueue()` (source lines 212–214) issues a new `getQueue`
call with the properties current at firing time. -/
def timerFireStep (tid : Nat) (st : MState) : MState :=
  if st.armed.any (fun t => t.id == tid) then
    issueFetch false { st with armed := st.armed.filter (fun t => t.id != tid) }
  else st

/-- `compile` models `this.exclusions.map((x) => new RegExp(x))` inside
`updated` (source line 76): patterns are compiled left to right and the
first pattern the host regex engine rejects raises, discarding any
regexes compiled before it; `compileOne` abstracts `new RegExp`, the
returned error carries the offending pattern (the JS `SyntaxError`
names it). -/
def compile {Rx : Type} (compileOne : String → Option Rx) :
    List String → Except String (List Rx)
  | [] => .ok []
  | p :: ps =>
    match compileOne p with
    | none => .error p
    | some rx =>
      match compile compileOne ps with
      | .ok rxs => .ok (rx :: rxs)
      | .error q => .error q

/-- `updated` (source lines 73–79): when the `exclusions` property
changed, recompile `this.exclusionsRx`; a nullish `exclusions` installs
`[]`; if `new RegExp` throws, the assignment never happens, so the
previously installed matcher is kept and the error (second component)
propagates out of the lifecycle callback. -/
def updated {Rx : Type} (compileOne : String → Option Rx)
    (exclusionsRx : List Rx) (exclusions : Option (List String)) :
    List Rx × Option String :=
  match exclusions with
  | none => ([], none)
  | some ps =>
    match compile compileOne ps with
    | .ok rxs => (rxs, none)
    | .error p => (exclusionsRx, some p)

/-- The events the environment (user, network, browser event loop) can
deliver to the component. -/
inductive QEvent where
  | setParams (p : QueueParams)
  | loadMoreClick
  | resolve (fid : Nat) (data : ResponseData)
  | reject (fid : Nat) (msg : String)
  | timerFire (tid : Nat)
deriving DecidableEq

/-- One step of the component under an environment event. -/
def step (st : MState) (e : QEvent) : MState :=
  match e with
  | .setParams p => setParamsStep p st
  | .loadMoreClick => loadMore st
  | .resolve fid data => resolveStep fid data st
  | .reject fid msg => rejectStep fid msg st
  | .timerFire tid => timerFireStep tid st

/-- Run a sequence of events from a state. -/
def run (st : MState) (es : List QEvent) : MState :=
  es.foldl step st

/-- The freshly connected component: no snapshot, no timer, no fetch in
flight, `pageSize = 50`. -/
def initState (p : QueueParams) : MState :=
  { params := p, queue := none, isLoading := false, timerId := none,
    armed := [], inflight := [], nextId := 0, notifications := 0 }

end CrawlQueue

open CrawlQueue

/-- Concrete watched properties for trace evaluation: the initial state. -/
def paramsA : QueueParams := ⟨"org1", "crawl1", "", 50⟩

/-- Concrete watched properties: the user types the regex "ads". -/
def paramsB : QueueParams := ⟨"org1", "crawl1", "ads", 50⟩

/-- Concrete watched properties: the user retypes the regex to "news". -/
def paramsC : QueueParams := ⟨"org1", "crawl1", "news", 50⟩

/-- A concrete queue response, resolved for the query issued under
`paramsB`. -/
def dataStale : ResponseData := ⟨3, ["https://a.com"], []⟩

/-- A concrete queue response, resolved for the query issued under
`paramsC`. -/
def dataFresh : ResponseData := ⟨4, ["https://b.com"], []⟩

/-- A concrete regex host: every pattern except the unbalanced `"("`
compiles, and a compiled pattern is represented by its own source
string. -/
def hostCompileOne : String → Option String :=
  fun p => if p = "(" then none else some p

namespace QueueStore

/-- Modelled from the spec: the backend Queue Store operation
`snapshot(crawlId, offset, count, pattern?)` (spec §4.1 and §3) is not
among the given sources — only its frontend caller is. Following the
spec's words: `total` is the count of all queued URLs for the crawl;
`results` is the ordered window `[offset, offset+count)` of URLs;
`matched` is the full list of URLs in the queue matching `pattern`,
independent of `offset`/`count`, and no match set is computed when no
pattern is supplied. -/
def snapshot (queue : List String) (offset count : Nat)
    (pattern : Option (String → Bool)) : ResponseData :=
  { total := queue.length,
    results := (queue.drop offset).take count,
    matched :=
      match pattern with
      | none => []
      | some rx => queue.filter rx }

end QueueStore

/-- `isExcluded` agrees with `List.any` of the tests. -/
theorem isExcluded_eq_any (rxs : List (String → Bool)) (url : String) :
    isExcluded rxs url = rxs.any (fun rx => rx url) := by
  induction rxs with
  | nil => rfl
  | cons rx rest ih =>
      simp only [isExcluded, List.any_cons]
      by_cases h : rx url
      · simp [h]
      · simp [h, ih]

/-- Claim C6: `isExcluded` is true iff at least one pattern in the set matches
the URL (logical OR over all patterns), and the boolean result is
independent of pattern order despite the first-match short-circuit. -/
theorem isExcluded_or_semantics (rxs : List (String → Bool)) (url : String) :
    (isExcluded rxs url = true ↔ ∃ rx ∈ rxs, rx url = true)
      ∧ ∀ rxs' : List (String → Bool), rxs.Perm rxs' →
          isExcluded rxs url = isExcluded rxs' url := by
  constructor
  · rw [isExcluded_eq_any]
    simp [List.any_eq_true]
  · intro rxs' hperm
    rw [isExcluded_eq_any, isExcluded_eq_any]
    have hiff : (rxs.any (fun rx => rx url) = true)
        ↔ (rxs'.any (fun rx => rx url) = true) := by
      simp only [List.any_eq_true]
      constructor
      · rintro ⟨x, hx, hxu⟩; exact ⟨x, hperm.mem_iff.mp hx, hxu⟩
      · rintro ⟨x, hx, hxu⟩; exact ⟨x, hperm.mem_iff.mpr hx, hxu⟩
    cases hb : rxs'.any (fun rx => rx url) with
    | true => exact hiff.mpr hb
    | false =>
        cases hb2 : rxs.any (fun rx => rx url) with
        | false => rfl
        | true => rw [hb] at hiff; exact absurd (hiff.mp hb2) (by simp)

/-- Witness for C6 at a concrete pattern set and its transposition. -/
theorem isExcluded_or_semantics_witness :
    isExcluded [fun u => u == "a", fun u => u == "b"] "b"
      = isExcluded [fun u => u == "b", fun u => u == "a"] "b" :=
  (isExcluded_or_semantics [fun u => u == "a", fun u => u == "b"] "b").2
    [fun u => u == "b", fun u => u == "a"]
    (List.Perm.swap (fun u => u == "b") (fun u => u == "a") [])

/-- Claim C5: a URL in the server-returned matched set is never rendered as
excluded; match classification takes precedence, so the two display
classifications are disjoint. -/
theorem match_excluded_disjoint (matched : List String)
    (rxs : List (String → Bool)) (url : String) (h : url ∈ matched) :
    (classifyEntry matched rxs url).isExcluded = false
      ∧ ((classifyEntry matched rxs url).isMatch
          && (classifyEntry matched rxs url).isExcluded) = false
      ∧ linkClass (classifyEntry matched rxs url)
          ≠ "text-gray-500 hover:text-gray-400 line-through" := by
  have hany : matched.any (fun v => v == url) = true := by
    rw [List.any_eq_true]
    exact ⟨url, h, by simp⟩
  have hmatch : (classifyEntry matched rxs url).isMatch = true := by
    simp [classifyEntry, hany]
  have hexc : (classifyEntry matched rxs url).isExcluded = false := by
    simp [classifyEntry, hany]
  refine ⟨hexc, by simp [hexc], ?_⟩
  simp [linkClass, hmatch]

/-- Witness for C5 at a concrete matched list and URL. -/
theorem match_excluded_disjoint_witness :
    (classifyEntry ["https://a.com"] [fun _ => true] "https://a.com").isExcluded = false
      ∧ ((classifyEntry ["https://a.com"] [fun _ => true] "https://a.com").isMatch
          && (classifyEntry ["https://a.com"] [fun _ => true] "https://a.com").isExcluded) = false
      ∧ linkClass (classifyEntry ["https://a.com"] [fun _ => true] "https://a.com")
          ≠ "text-gray-500 hover:text-gray-400 line-through" :=
  match_excluded_disjoint ["https://a.com"] [fun _ => true] "https://a.com"
    (by simp)

/-- Claim C10: whether an entry is highlighted as a match is decided solely by
exact string-equality membership of its URL in the server-returned
matched array; the client never re-evaluates the match regex locally, so
a URL accepted by the regex but absent from `matched` is not
highlighted. -/
theorem match_by_membership (matched : List String)
    (rxs : List (String → Bool)) (url : String) :
    ((classifyEntry matched rxs url).isMatch = true ↔ url ∈ matched)
      ∧ ∀ serverRx : String → Bool, serverRx url = true → url ∉ matched →
          (classifyEntry matched rxs url).isMatch = false := by
  have hiff : (classifyEntry matched rxs url).isMatch = true ↔ url ∈ matched := by
    simp only [classifyEntry, List.any_eq_true]
    constructor
    · rintro ⟨v, hv, hvu⟩
      rw [beq_iff_eq] at hvu
      rwa [hvu] at hv
    · intro h; exact ⟨url, h, by simp⟩
  refine ⟨hiff, ?_⟩
  intro serverRx _ hnot
  cases hb : (classifyEntry matched rxs url).isMatch with
  | false => rfl
  | true => exact absurd (hiff.mp hb) hnot

/-- Witness for C10: a URL the regex accepts but `matched` omits is not
highlighted. -/
theorem match_by_membership_witness :
    (classifyEntry ["https://a.com"] [] "https://b.com").isMatch = false :=
  (match_by_membership ["https://a.com"] [] "https://b.com").2
    (fun _ => true) rfl (by simp)

/-- Claim C1: for every error raised by a `getQueue` poll, the catch
block suppresses the user-facing alert exactly when the error message is
the distinguishable `"invalid_regex"` error, and for every other error
it surfaces a notification; in both cases the previously held queue
snapshot is kept unchanged. -/
theorem reject_alert_suppression (st : MState) (fid : Nat) (msg : String)
    (f : Fetch) (h : st.inflight.find? (fun g => g.id == fid) = some f) :
    (step st (.reject fid msg)).queue = st.queue
      ∧ ((step st (.reject fid msg)).notifications = st.notifications
          ↔ msg = "invalid_regex") := by
  simp only [step, rejectStep, h, rejectCont]
  by_cases hm : msg = "invalid_regex" <;> simp [hm]

/-- Witness for C1 at a state with one in-flight fetch and a transient
network error. -/
theorem reject_alert_suppression_witness :
    (step (run (initState paramsA) [.setParams paramsB])
          (.reject 0 "network_error")).queue
        = (run (initState paramsA) [.setParams paramsB]).queue
      ∧ ((step (run (initState paramsA) [.setParams paramsB])
            (.reject 0 "network_error")).notifications
            = (run (initState paramsA) [.setParams paramsB]).notifications
          ↔ "network_error" = "invalid_regex") :=
  reject_alert_suppression (run (initState paramsA) [.setParams paramsB]) 0
    "network_error" ⟨0, getQueueRequest paramsB, true⟩ (by decide)

/-- Counterexample to claim C2: a query issued under the regex `"ads"`
(`paramsB`) is still in flight when the regex changes to `"news"`
(`paramsC`); its effect is not aborted, and when its response resolves
it is applied to the displayed queue state, so the stale response is
not discarded. -/
theorem stale_response_applied_counterexample :
    (run (initState paramsA)
        [.setParams paramsB, .setParams paramsC, .resolve 0 dataStale]).queue
        = some dataStale
      ∧ (run (initState paramsA) [.setParams paramsB, .setParams paramsC]).inflight
          = [⟨0, getQueueRequest paramsB, true⟩, ⟨1, getQueueRequest paramsC, true⟩]
      ∧ (run (initState paramsA)
          [.setParams paramsB, .setParams paramsC]).params.regex ≠ "ads" := by
  refine ⟨rfl, rfl, ?_⟩
  decide

/-- Claim C2 as amended: changing a watched property disarms only the
stored poll timer and issues a new query; an in-flight query is not
aborted — it stays in flight, and when any in-flight query later
resolves, its (possibly stale) response is applied to the displayed
queue state. -/
theorem param_change_clears_timer_not_fetch (st : MState) (p : QueueParams)
    (hp : p ≠ st.params) :
    (∀ f ∈ st.inflight, f ∈ (step st (.setParams p)).inflight)
      ∧ (∃ f ∈ (step st (.setParams p)).inflight, f.req = getQueueRequest p)
      ∧ (∀ t ∈ (step st (.setParams p)).armed, t ∈ st.armed)
      ∧ (∀ t ∈ st.armed, some t.id ≠ st.timerId
          → t ∈ (step st (.setParams p)).armed)
      ∧ (∀ (st₂ : MState) (fid : Nat) (g : Fetch) (data : ResponseData),
          st₂.inflight.find? (fun x => x.id == fid) = some g →
          (step st₂ (.resolve fid data)).queue = some data) := by
  simp only [step, setParamsStep, if_neg hp, fetchOnUpdate, issueFetch,
    clearTimer]
  refine ⟨?_, ?_, ?_, ?_, ?_⟩
  · intro f hf
    exact List.mem_append_left _ hf
  · refine ⟨⟨st.nextId, getQueueRequest p, true⟩, ?_, rfl⟩
    exact List.mem_append_right _ (List.mem_singleton.mpr rfl)
  · intro t ht
    exact (List.mem_filter.mp ht).1
  · intro t ht hne
    exact List.mem_filter.mpr ⟨ht, by simpa using hne⟩
  · intro st₂ fid g data hfind
    simp only [step, resolveStep, hfind, resolveCont]

/-- Witness for the amended C2 at a concrete state with an in-flight
query. -/
theorem param_change_clears_timer_not_fetch_witness :
    (∀ f ∈ (run (initState paramsA) [.setParams paramsB]).inflight,
        f ∈ (step (run (initState paramsA) [.setParams paramsB])
              (.setParams paramsC)).inflight)
      ∧ (∃ f ∈ (step (run (initState paramsA) [.setParams paramsB])
              (.setParams paramsC)).inflight, f.req = getQueueRequest paramsC)
      ∧ (∀ t ∈ (step (run (initState paramsA) [.setParams paramsB])
              (.setParams paramsC)).armed,
          t ∈ (run (initState paramsA) [.setParams paramsB]).armed)
      ∧ (∀ t ∈ (run (initState paramsA) [.setParams paramsB]).armed,
          some t.id ≠ (run (initState paramsA) [.setParams paramsB]).timerId
          → t ∈ (step (run (initState paramsA) [.setParams paramsB])
                  (.setParams paramsC)).armed)
      ∧ (∀ (st₂ : MState) (fid : Nat) (g : Fetch) (data : ResponseData),
          st₂.inflight.find? (fun x => x.id == fid) = some g →
          (step st₂ (.resolve fid data)).queue = some data) :=
  param_change_clears_timer_not_fetch
    (run (initState paramsA) [.setParams paramsB]) paramsC (by decide)

/-- Counterexample to claim C3: after a single transient
(non-invalid-regex) poll failure, no timer is armed and no fetch is in
flight, so the next poll is not scheduled and the session's polling
loop has terminated (a notification was surfaced). -/
theorem failed_poll_stops_polling_counterexample :
    (run (initState paramsA) [.setParams paramsB, .reject 0 "network_error"]).armed = []
      ∧ (run (initState paramsA)
          [.setParams paramsB, .reject 0 "network_error"]).inflight = []
      ∧ (run (initState paramsA)
          [.setParams paramsB, .reject 0 "network_error"]).notifications = 1 :=
  ⟨rfl, rfl, rfl⟩

/-- Claim C3 as amended: a rejected poll never re-arms the poll timer
and issues no new query — the armed-timer set is unchanged and
in-flight queries only shrink — so after a failure polling resumes only
through a later watched-property change (or another chain's successful
resolve), not at the normal poll cadence. -/
theorem reject_does_not_rearm (st : MState) (fid : Nat) (msg : String) :
    (step st (.reject fid msg)).armed = st.armed
      ∧ ∀ f ∈ (step st (.reject fid msg)).inflight, f ∈ st.inflight := by
  simp only [step, rejectStep]
  cases h : st.inflight.find? (fun f => f.id == fid) with
  | none => exact ⟨rfl, fun f hf => hf⟩
  | some g =>
      simp only [rejectCont]
      refine ⟨by trivial, ?_⟩
      intro f hf
      exact (List.mem_filter.mp hf).1

/-- Witness for the amended C3 at a concrete state with one in-flight
fetch. -/
theorem reject_does_not_rearm_witness :
    (step (run (initState paramsA) [.setParams paramsB])
        (.reject 0 "network_error")).armed
        = (run (initState paramsA) [.setParams paramsB]).armed
      ∧ ∀ f ∈ (step (run (initState paramsA) [.setParams paramsB])
            (.reject 0 "network_error")).inflight,
          f ∈ (run (initState paramsA) [.setParams paramsB]).inflight :=
  reject_does_not_rearm (run (initState paramsA) [.setParams paramsB]) 0
    "network_error"

/-- Counterexample to claim C4: two watched-property changes fork the
poll chain — after both in-flight queries resolve, two 5-second timers
are armed simultaneously (the second `this.timerId` assignment
overwrites the first without clearing it), and after both fire, two
`getQueue` polls are simultaneously in flight, so polls are not
sequential and do overlap within one session. -/
theorem overlapping_polls_counterexample :
    (run (initState paramsA)
        [.setParams paramsB, .setParams paramsC, .resolve 0 dataStale,
         .resolve 1 dataFresh]).armed
        = [⟨2, 5000⟩, ⟨3, 5000⟩]
      ∧ (run (initState paramsA)
          [.setParams paramsB, .setParams paramsC, .resolve 0 dataStale,
           .resolve 1 dataFresh, .timerFire 2, .timerFire 3]).inflight.length
          = 2 :=
  ⟨rfl, rfl⟩

/-- Claim C4 as amended: within one poll chain the next poll is armed
only by the completion of a successful query, always with delay exactly
`POLL_INTERVAL_SECONDS * 1000` milliseconds — no other event arms a
timer — but chains forked by watched-property changes make globally
overlapping polls reachable. -/
theorem timer_armed_only_on_completion (st : MState) (e : QEvent) (t : Timer)
    (h : t ∈ (step st e).armed) :
    t ∈ st.armed
      ∨ (t.delayMs = POLL_INTERVAL_SECONDS * 1000 ∧ t.id = st.nextId
          ∧ ∃ fid data, e = QEvent.resolve fid data
              ∧ (st.inflight.find? (fun g => g.id == fid)).isSome) := by
  cases e with
  | setParams p =>
      left
      simp only [step, setParamsStep] at h
      by_cases hp : p = st.params
      · rw [if_pos hp] at h; exact h
      · rw [if_neg hp] at h
        simp only [fetchOnUpdate, issueFetch, clearTimer] at h
        exact (List.mem_filter.mp h).1
  | loadMoreClick =>
      left
      simp only [step, loadMore, setParamsStep] at h
      have hp : ¬({ st.params with pageSize := st.params.pageSize + 50 }
          = st.params) := by
        intro hcontra
        have := congrArg QueueParams.pageSize hcontra
        simp at this
      rw [if_neg hp] at h
      simp only [fetchOnUpdate, issueFetch, clearTimer] at h
      exact (List.mem_filter.mp h).1
  | resolve fid data =>
      simp only [step, resolveStep] at h
      cases hf : st.inflight.find? (fun g => g.id == fid) with
      | none => rw [hf] at h; left; exact h
      | some g =>
          rw [hf] at h
          simp only [resolveCont] at h
          rcases List.mem_append.mp h with h1 | h2
          · left; exact h1
          · right
            have ht : t = ⟨st.nextId, POLL_INTERVAL_SECONDS * 1000⟩ :=
              List.mem_singleton.mp h2
            subst ht
            exact ⟨rfl, rfl, fid, data, rfl, by rw [hf]; rfl⟩
  | reject fid msg =>
      left
      simp only [step, rejectStep] at h
      cases hf : st.inflight.find? (fun f => f.id == fid) with
      | none => rw [hf] at h; exact h
      | some g => rw [hf] at h; simp only [rejectCont] at h; exact h
  | timerFire tid =>
      left
      simp only [step, timerFireStep] at h
      by_cases ha : st.armed.any (fun x => x.id == tid)
      · rw [if_pos ha] at h
        simp only [issueFetch] at h
        exact (List.mem_filter.mp h).1
      · rw [if_neg ha] at h; exact h

/-- Witness for the amended C4: the timer armed by a concrete resolve
event. -/
theorem timer_armed_only_on_completion_witness :
    (⟨1, 5000⟩ : Timer) ∈ (run (initState paramsA) [.setParams paramsB]).armed
      ∨ ((⟨1, 5000⟩ : Timer).delayMs = POLL_INTERVAL_SECONDS * 1000
          ∧ (⟨1, 5000⟩ : Timer).id
              = (run (initState paramsA) [.setParams paramsB]).nextId
          ∧ ∃ fid data, QEvent.resolve 0 dataStale = QEvent.resolve fid data
              ∧ ((run (initState paramsA)
                    [.setParams paramsB]).inflight.find?
                  (fun g => g.id == fid)).isSome) :=
  timer_armed_only_on_completion (run (initState paramsA) [.setParams paramsB])
    (.resolve 0 dataStale) ⟨1, 5000⟩ (by decide)

/-- Claim C7: every `getQueue` request is issued with offset 0 and count
equal to the page size current at issue time (so the requested window is
one contiguous prefix of the queue), and each load-more action grows the
page size by 50, strictly increasing it. -/
theorem pagination_grows_prefix_window (st : MState) (e : QEvent) :
    (∀ f ∈ (step st e).inflight, f ∈ st.inflight
        ∨ (f.req.offset = 0 ∧ f.req.count = (step st e).params.pageSize
            ∧ f.req.regex = (step st e).params.regex))
      ∧ (step st .loadMoreClick).params.pageSize = st.params.pageSize + 50
      ∧ st.params.pageSize < (step st .loadMoreClick).params.pageSize := by
  have hload : (step st .loadMoreClick).params
      = { st.params with pageSize := st.params.pageSize + 50 } := by
    simp only [step, loadMore, setParamsStep]
    have hp : ¬({ st.params with pageSize := st.params.pageSize + 50 }
        = st.params) := by
      intro hcontra
      have := congrArg QueueParams.pageSize hcontra
      simp at this
    rw [if_neg hp]
    simp [fetchOnUpdate, issueFetch, clearTimer]
  refine ⟨?_, by rw [hload], by rw [hload]; simp⟩
  intro f hf
  cases e with
  | setParams p =>
      simp only [step, setParamsStep] at hf ⊢
      by_cases hp : p = st.params
      · rw [if_pos hp] at hf ⊢; exact Or.inl hf
      · rw [if_neg hp] at hf ⊢
        simp only [fetchOnUpdate, issueFetch, clearTimer] at hf ⊢
        rcases List.mem_append.mp hf with h1 | h2
        · exact Or.inl h1
        · have hfe : f = ⟨st.nextId, getQueueRequest p, true⟩ :=
            List.mem_singleton.mp h2
          subst hfe
          exact Or.inr ⟨rfl, rfl, rfl⟩
  | loadMoreClick =>
      simp only [step, loadMore, setParamsStep] at hf ⊢
      have hp : ¬({ st.params with pageSize := st.params.pageSize + 50 }
          = st.params) := by
        intro hcontra
        have := congrArg QueueParams.pageSize hcontra
        simp at this
      rw [if_neg hp] at hf ⊢
      simp only [fetchOnUpdate, issueFetch, clearTimer] at hf ⊢
      rcases List.mem_append.mp hf with h1 | h2
      · exact Or.inl h1
      · have hfe : f = ⟨st.nextId,
            getQueueRequest { st.params with pageSize := st.params.pageSize + 50 },
            true⟩ := List.mem_singleton.mp h2
        subst hfe
        exact Or.inr ⟨rfl, rfl, rfl⟩
  | resolve fid data =>
      simp only [step, resolveStep] at hf
      cases hfind : st.inflight.find? (fun g => g.id == fid) with
      | none => rw [hfind] at hf; exact Or.inl hf
      | some g =>
          rw [hfind] at hf
          simp only [resolveCont] at hf
          exact Or.inl (List.mem_filter.mp hf).1
  | reject fid msg =>
      simp only [step, rejectStep] at hf
      cases hfind : st.inflight.find? (fun g => g.id == fid) with
      | none => rw [hfind] at hf; exact Or.inl hf
      | some g =>
          rw [hfind] at hf
          simp only [rejectCont] at hf
          exact Or.inl (List.mem_filter.mp hf).1
  | timerFire tid =>
      simp only [step, timerFireStep] at hf ⊢
      by_cases ha : st.armed.any (fun x => x.id == tid)
      · rw [if_pos ha] at hf ⊢
        simp only [issueFetch] at hf ⊢
        rcases List.mem_append.mp hf with h1 | h2
        · exact Or.inl h1
        · have hfe : f = ⟨st.nextId, getQueueRequest st.params, false⟩ :=
            List.mem_singleton.mp h2
          subst hfe
          exact Or.inr ⟨rfl, rfl, rfl⟩
      · rw [if_neg ha] at hf ⊢; exact Or.inl hf

/-- Witness for C7 at a concrete state and a load-more click. -/
theorem pagination_grows_prefix_window_witness :
    (∀ f ∈ (step (run (initState paramsA) [.setParams paramsB])
          .loadMoreClick).inflight,
        f ∈ (run (initState paramsA) [.setParams paramsB]).inflight
          ∨ (f.req.offset = 0
              ∧ f.req.count
                  = (step (run (initState paramsA) [.setParams paramsB])
                      .loadMoreClick).params.pageSize
              ∧ f.req.regex
                  = (step (run (initState paramsA) [.setParams paramsB])
                      .loadMoreClick).params.regex))
      ∧ (step (run (initState paramsA) [.setParams paramsB])
            .loadMoreClick).params.pageSize
          = (run (initState paramsA) [.setParams paramsB]).params.pageSize + 50
      ∧ (run (initState paramsA) [.setParams paramsB]).params.pageSize
          < (step (run (initState paramsA) [.setParams paramsB])
              .loadMoreClick).params.pageSize :=
  pagination_grows_prefix_window (run (initState paramsA) [.setParams paramsB])
    .loadMoreClick

/-- Helper: when the first non-compiling pattern is `p`, `compile` fails
with exactly `p`. -/
theorem compile_error_of_find {Rx : Type} (compileOne : String → Option Rx)
    (ps : List String) (p : String)
    (h : ps.find? (fun q => (compileOne q).isNone) = some p) :
    compile compileOne ps = .error p := by
  induction ps with
  | nil => simp [List.find?] at h
  | cons q rest ih =>
      by_cases hq : (compileOne q).isNone = true
      · have h' : (q :: rest).find? (fun x => (compileOne x).isNone) = some q :=
          List.find?_cons_of_pos _ (by simpa using hq)
        rw [h'] at h
        cases h
        rw [Option.isNone_iff_eq_none] at hq
        simp [compile, hq]
      · have h' : (q :: rest).find? (fun x => (compileOne x).isNone)
            = rest.find? (fun x => (compileOne x).isNone) :=
          List.find?_cons_of_neg _ (by simpa using hq)
        rw [h'] at h
        have hrest := ih h
        rcases hsome : compileOne q with _ | rx
        · rw [hsome] at hq; simp at hq
        · simp [compile, hsome, hrest]

/-- Helper: when every pattern compiles, `compile` succeeds with one
compiled regex per input pattern, in order. -/
theorem compile_ok_of_all {Rx : Type} (compileOne : String → Option Rx)
    (ps : List String)
    (h : ps.find? (fun q => (compileOne q).isNone) = none) :
    ∃ rxs, compile compileOne ps = .ok rxs
      ∧ rxs.length = ps.length
      ∧ ∀ i (h₁ : i < ps.length) (h₂ : i < rxs.length),
          compileOne (ps.get ⟨i, h₁⟩) = some (rxs.get ⟨i, h₂⟩) := by
  induction ps with
  | nil =>
      refine ⟨[], rfl, rfl, ?_⟩
      intro i h₁ _
      exact absurd h₁ (by simp)
  | cons q rest ih =>
      rw [List.find?_eq_none] at h
      have hq : ¬((compileOne q).isNone = true) := h q (by simp)
      rcases hsome : compileOne q with _ | rx
      · rw [hsome] at hq; simp at hq
      · have hrest : rest.find? (fun x => (compileOne x).isNone) = none := by
          rw [List.find?_eq_none]
          intro a ha
          exact h a (by simp [ha])
        obtain ⟨rxs, hok, hlen, hget⟩ := ih hrest
        refine ⟨rx :: rxs, by simp [compile, hsome, hok], by simp [hlen], ?_⟩
        intro i h₁ h₂
        cases i with
        | zero => simpa using hsome
        | succ n =>
            have hn₁ : n < rest.length := by simpa using h₁
            have hn₂ : n < rxs.length := by simpa using h₂
            simpa using hget n hn₁ hn₂

/-- Claim C8: compilation of the exclusion matcher is all-or-nothing:
if any pattern fails to compile, the operation fails naming the first
invalid entry and the previously installed matcher is kept (no partial
matcher from the patterns before the bad one is ever installed); if all
patterns compile, the installed matcher holds exactly one compiled
regex per input pattern, in order. -/
theorem compile_all_or_nothing {Rx : Type} (compileOne : String → Option Rx)
    (ps : List String) (old : List Rx) :
    (∀ p, ps.find? (fun q => (compileOne q).isNone) = some p →
        compile compileOne ps = .error p
          ∧ updated compileOne old (some ps) = (old, some p))
      ∧ (ps.find? (fun q => (compileOne q).isNone) = none →
          ∃ rxs, compile compileOne ps = .ok rxs
            ∧ updated compileOne old (some ps) = (rxs, none)
            ∧ rxs.length = ps.length
            ∧ ∀ i (h₁ : i < ps.length) (h₂ : i < rxs.length),
                compileOne (ps.get ⟨i, h₁⟩) = some (rxs.get ⟨i, h₂⟩)) := by
  constructor
  · intro p hp
    have herr := compile_error_of_find compileOne ps p hp
    exact ⟨herr, by simp [updated, herr]⟩
  · intro hall
    obtain ⟨rxs, hok, hlen, hget⟩ := compile_ok_of_all compileOne ps hall
    exact ⟨rxs, hok, by simp [updated, hok], hlen, hget⟩

/-- Witness for C8: a set with the invalid pattern `"("` fails naming it
and keeps the old matcher; a fully valid set installs one regex per
pattern. -/
theorem compile_all_or_nothing_witness :
    (compile hostCompileOne ["a", "(", "b"] = .error "("
        ∧ updated hostCompileOne ["old"] (some ["a", "(", "b"])
            = (["old"], some "("))
      ∧ ∃ rxs, compile hostCompileOne ["a", "b"] = .ok rxs
          ∧ updated hostCompileOne ["old"] (some ["a", "b"]) = (rxs, none)
          ∧ rxs.length = (["a", "b"] : List String).length
          ∧ ∀ i (h₁ : i < (["a", "b"] : List String).length)
              (h₂ : i < rxs.length),
              hostCompileOne ((["a", "b"] : List String).get ⟨i, h₁⟩)
                = some (rxs.get ⟨i, h₂⟩) :=
  ⟨(compile_all_or_nothing hostCompileOne ["a", "(", "b"] ["old"]).1 "("
      (by decide),
    (compile_all_or_nothing hostCompileOne ["a", "b"] ["old"]).2 (by decide)⟩

/-- Claim C9: spec-modelled — the `matched` set returned by `snapshot`
is the full set of queue URLs matching the regex over the entire queue,
independent of the `offset` and `count` arguments, and is always a
subset of all queued URLs for the crawl. -/
theorem matched_global_and_window_independent (q : List String)
    (o₁ c₁ o₂ c₂ : Nat) (rx : String → Bool) :
    (QueueStore.snapshot q o₁ c₁ (some rx)).matched
        = (QueueStore.snapshot q o₂ c₂ (some rx)).matched
      ∧ (∀ u ∈ (QueueStore.snapshot q o₁ c₁ (some rx)).matched, u ∈ q)
      ∧ (∀ u, u ∈ (QueueStore.snapshot q o₁ c₁ (some rx)).matched
          ↔ u ∈ q ∧ rx u = true) := by
  refine ⟨rfl, ?_, ?_⟩
  · intro u hu
    simp only [QueueStore.snapshot] at hu
    exact (List.mem_filter.mp hu).1
  · intro u
    simp only [QueueStore.snapshot]
    exact List.mem_filter

/-- Witness for C9 at a concrete queue, two window sizes and a concrete
matcher. -/
theorem matched_global_and_window_independent_witness :
    (QueueStore.snapshot ["https://a.com", "https://ads.com/1"] 0 1
          (some (fun u => u == "https://ads.com/1"))).matched
        = (QueueStore.snapshot ["https://a.com", "https://ads.com/1"] 0 1000
            (some (fun u => u == "https://ads.com/1"))).matched
      ∧ (∀ u ∈ (QueueStore.snapshot ["https://a.com", "https://ads.com/1"] 0 1
            (some (fun u => u == "https://ads.com/1"))).matched,
          u ∈ ["https://a.com", "https://ads.com/1"])
      ∧ (∀ u, u ∈ (QueueStore.snapshot ["https://a.com", "https://ads.com/1"]
            0 1 (some (fun u => u == "https://ads.com/1"))).matched
          ↔ u ∈ ["https://a.com", "https://ads.com/1"]
              ∧ (u == "https://ads.com/1") = true) :=
  matched_global_and_window_independent ["https://a.com", "https://ads.com/1"]
    0 1 0 1000 (fun u => u == "https://ads.com/1")
